import Mathlib

/-!
graphics-suggestion-api: a shallow embedding of `main.go` and `model.go`.

The service extracts the text of an image (AWS Rekognition), classifies it with a
multi-label Bayes classifier (`github.com/lytics/multibayes`) and resolves the predicted
labels through the internal concordances endpoint.

Conventions of the embedding.

* A Go `error` is its message (`err.Error()`), a `String`.
* A function returning `(T, error)` returns `Except Err T`.
* Everything outside the two source files (Rekognition, `net/http`, `encoding/json`,
  `os`/`ioutil`, multibayes) is a field of an explicit environment record; the answer
  of a collaborator is a function of the request it receives.
* Every request sent to a collaborator is appended to a log (`List Call`), so that
  "the collaborator is not called" is a statement about that log.
* A Go `map` is the list of its entries in the order in which the `range` loop
  visits them, with pairwise distinct keys; the order is arbitrary, so a theorem
  quantified over all such lists holds for every iteration order.
* Go strings are sequences of characters.  The only byte-indexed operations of the
  source cut at an ASCII character (`/`, `&`, `?`), where byte and character
  positions of a UTF-8 string coincide.
* `time.Sleep` and logging have no effect on the values computed and are left out.
-/

set_option maxRecDepth 8000

namespace GraphicsSuggestion

/-! ## Go values -/

/-- The message of a Go `error`. -/
abbrev Err := String

/-- A Go `map[κ]ν`: its entries in `range` order, keys pairwise distinct. -/
structure GoMap (κ ν : Type) where
  entries : List (κ × ν)
  nodup : (entries.map Prod.fst).Nodup

/-- The values of a Go `float64`: every finite double is a rational number, so
`finite` covers them all (the two zeros compare equal and are identified). -/
inductive Float64 where
  | nan
  | negInf
  | finite (q : ℚ)
  | posInf

/-- The Go comparison `x >= y` on `float64` (IEEE 754: false as soon as one side is NaN). -/
def Float64.ge : Float64 → Float64 → Bool
  | .nan, _ => false
  | _, .nan => false
  | .posInf, _ => true
  | _, .negInf => true
  | .negInf, _ => false
  | .finite _, .posInf => false
  | .finite a, .finite b => decide (b ≤ a)

/-- Go `strings.LastIndex(s, substr)` on character lists: the index of the last
occurrence of `substr` in `s`, or `-1`. -/
def lastIndexChars (substr : List Char) : List Char → Int
  | [] => if substr = [] then 0 else -1
  | c :: cs =>
    let r := lastIndexChars substr cs
    if 0 ≤ r then r + 1
    else if substr.isPrefixOf (c :: cs) then 0 else -1

/-- Go `strings.LastIndex`. -/
def LastIndex (s substr : String) : Int :=
  lastIndexChars substr.data s.data

/-- Go `len(s)`. -/
def len (s : String) : Int :=
  s.data.length

/-- Go slice expression `s[i:]`, for an index within `0 ≤ i ≤ len(s)`. -/
def sliceFrom (s : String) (i : Int) : String :=
  ⟨s.data.drop i.toNat⟩

/-- Go slice expression `s[:len(s)-1]`, for a non-empty `s`. -/
def sliceDropLast (s : String) : String :=
  ⟨s.data.dropLast⟩

/-! ## model.go -/

structure trainingItem where
  text : String
  concepts : List String
  deriving DecidableEq

structure annotation where
  Predicate : String
  Id : String
  deriving DecidableEq

structure Concept where
  ID : String
  APIURL : String
  Type_ : String
  PrefLabel : String
  IsFTAuthor : Option Bool
  Predicate : String
  deriving DecidableEq

structure SuggestionsResponse where
  Suggestions : List Concept
  deriving DecidableEq

structure InternalConcordancesResponse where
  Concepts : GoMap String Concept

/-! ## The collaborators -/

/-- One `rekognition.TextDetection`, with the two fields the source reads
(both are populated on every detection Rekognition returns). -/
structure TextDetection where
  Type_ : String
  DetectedText : String
  deriving DecidableEq

/-- An `http.Request` as the source builds it: method, URL and the headers set. -/
structure Request where
  Method : String
  URL : String
  Header : List (String × String)
  deriving DecidableEq

/-- The part of an `http.Response` the source reads. -/
structure HTTPResponse where
  StatusCode : Int
  Body : String
  deriving DecidableEq

/-- A request sent to a collaborator. -/
inductive Call where
  | DetectText (bucket name : String)
  | Do (req : Request)
  deriving DecidableEq

/-- The Rekognition client: `reko.DetectText` on an S3 object (bucket, name) gives
`output.TextDetections` or an error. -/
structure Rekognition where
  DetectText : String → String → Except Err (List TextDetection)

/-- The packages `net/http` and `encoding/json` as the source uses them. -/
structure Net where
  /-- The error of `http.NewRequest(method, url, nil)`, if it has one. -/
  NewRequest : String → String → Option Err
  /-- Method `client.Do`. -/
  Do : Request → Except Err HTTPResponse
  /-- Decoding the response body into `[]annotation`. -/
  DecodeAnnotations : String → Except Err (List annotation)
  /-- Decoding the response body into `InternalConcordancesResponse`. -/
  DecodeConcordances : String → Except Err InternalConcordancesResponse
  /-- Function `json.Marshal` on a `SuggestionsResponse`. -/
  MarshalSuggestions : SuggestionsResponse → Except Err String

/-- The multibayes classifier, over a type `C` of classifier states. -/
structure Multibayes (C : Type) where
  NewClassifier : C
  SetMinClassSize : C → Int → C
  Add : C → String → List String → C
  Posterior : C → String → GoMap String Float64
  /-- Function `json.Marshal` on a classifier. -/
  Marshal : C → Except Err String
  LoadClassifierFromFile : String → Except Err C

/-- The file system and AWS session set-up, as `main` and `getGraphicsUUIDs` use them. -/
structure Sys where
  /-- Function `session.NewSession` (region, access key id, secret) then `rekognition.New`. -/
  NewSession : String → String → String → Except Err Rekognition
  /-- Whether `os.Stat(name)` fails with an error for which `os.IsNotExist` holds. -/
  StatIsNotExist : String → Bool
  ReadFile : String → Except Err String
  WriteFile : String → String → Except Err Unit
  /-- The slice `json.Unmarshal(file, &uuids)` leaves in `uuids` (its error is ignored). -/
  UnmarshalUUIDs : String → List String

/-! ## main.go -/

def s3bucketName : String := "com.ft.imagepublish.k8s-content-test.test"

def about : String := "http://www.ft.com/ontology/annotation/about"

def mentions : String := "http://www.ft.com/ontology/annotation/mentions"

/-- The loop of `extractText` (lines 177-184) over `output.TextDetections`. -/
def extractTextLines (TextDetections : List TextDetection) : String :=
  TextDetections.foldl
    (fun result textDetection =>
      if textDetection.Type_ = "LINE" then result ++ (textDetection.DetectedText ++ " ")
      else result)
    ""

/-- Function `extractText` (lines 166-185). -/
def extractText (reko : Rekognition) (uuid : String) : Except Err String × List Call :=
  match reko.DetectText s3bucketName uuid with
  | .error err => (.error err, [Call.DetectText s3bucketName uuid])
  | .ok output => (.ok (extractTextLines output), [Call.DetectText s3bucketName uuid])

/-- The expression `a.Id[strings.LastIndex(a.Id, "/")+1:]` (line 159). -/
def conceptUUID (Id : String) : String :=
  sliceFrom Id (LastIndex Id "/" + 1)

/-- The loop of `getAnnotationConcepts` (lines 155-163) over the decoded annotations. -/
def annotationConcepts (annotations : List annotation) : List String :=
  annotations.foldl
    (fun concepts a =>
      if a.Predicate = mentions ∨ a.Predicate = about then concepts ++ [conceptUUID a.Id]
      else concepts)
    []

/-- Function `getAnnotationConcepts` (lines 136-164). -/
def getAnnotationConcepts (net : Net) (uuid apiKey : String) :
    Except Err (List String) × List Call :=
  let url := "http://test.api.ft.com/content/" ++ uuid ++ "/annotations"
  match net.NewRequest "GET" url with
  | some err => (.error err, [])
  | none =>
    let req : Request := ⟨"GET", url, [("x-api-key", apiKey)]⟩
    match net.Do req with
    | .error err => (.error err, [Call.Do req])
    | .ok resp =>
      match net.DecodeAnnotations resp.Body with
      | .error err => (.error err, [Call.Do req])
      | .ok annotations => (.ok (annotationConcepts annotations), [Call.Do req])

/-- Function `getGraphicsUUIDs` (lines 187-195); `.error` is the panic on a read failure. -/
def getGraphicsUUIDs (sys : Sys) : Except Err (List String) :=
  match sys.ReadFile "./graphics_uuids.json" with
  | .error err => .error err
  | .ok file => .ok (sys.UnmarshalUUIDs file)

/-- The loop of `buildTrainingSet` (lines 117-132) over the identifiers. -/
def buildTrainingSetLoop (reko : Rekognition) (net : Net) (apiKey : String)
    (uuids : List String) : List trainingItem × List Call :=
  uuids.foldl
    (fun (acc : List trainingItem × List Call) uuid =>
      match extractText reko uuid with
      | (.error _, l1) => (acc.1, acc.2 ++ l1)
      | (.ok text, l1) =>
        match getAnnotationConcepts net uuid apiKey with
        | (.error _, l2) => (acc.1, acc.2 ++ l1 ++ l2)
        | (.ok concepts, l2) => (acc.1 ++ [⟨text, concepts⟩], acc.2 ++ l1 ++ l2))
    ([], [])

/-- Function `buildTrainingSet` (lines 113-134); `.error` is the panic of
`getGraphicsUUIDs`. -/
def buildTrainingSet (sys : Sys) (reko : Rekognition) (net : Net) (apiKey : String) :
    Except Err (List trainingItem × List Call) :=
  match getGraphicsUUIDs sys with
  | .error err => .error err
  | .ok uuids => .ok (buildTrainingSetLoop reko net apiKey uuids)

structure suggestionHandler (C : Type) where
  reko : Rekognition
  classifier : C
  apiKey : String

/-- What a handler did with its `http.ResponseWriter`. -/
inductive Response where
  /-- The call `http.Error(w, error, code)`. -/
  | Error (error : String) (code : Nat)
  /-- Setting the header `Content-Type` and `w.Write(bytes)`, status 200. -/
  | Write (contentType : String) (bytes : String)
  deriving DecidableEq

/-- The HTTP status of a response. -/
def Response.status : Response → Nat
  | .Error _ code => code
  | .Write _ _ => 200

/-- The request URL before its last character is cut (lines 247-251). -/
def requestURLLoop (conceptsIDs : List String) : String :=
  conceptsIDs.foldl
    (fun requestURL conceptsID => requestURL ++ ("ids=" ++ conceptsID ++ "&"))
    "http://test.api.ft.com/internalconcordances?"

/-- The request URL of `retrieveConcepts` (lines 247-253). -/
def requestURL (conceptsIDs : List String) : String :=
  sliceDropLast (requestURLLoop conceptsIDs)

/-- The loop of `retrieveConcepts` (lines 275-279) over the decoded response. -/
def taggedConcepts (resp : InternalConcordancesResponse) : List Concept :=
  resp.Concepts.entries.foldl
    (fun concepts kc => concepts ++ [{ kc.2 with Predicate := mentions }])
    []

/-- Method `suggestionHandler.retrieveConcepts` (lines 245-281). -/
def retrieveConcepts {C : Type} (net : Net) (h : suggestionHandler C)
    (conceptsIDs : List String) : Except Err (List Concept) × List Call :=
  match net.NewRequest "GET" (requestURL conceptsIDs) with
  | some err => (.error err, [])
  | none =>
    let req : Request := ⟨"GET", requestURL conceptsIDs, [("x-api-key", h.apiKey)]⟩
    match net.Do req with
    | .error err => (.error err, [Call.Do req])
    | .ok resp =>
      if resp.StatusCode ≠ 200 then
        (.error ("unexpected status from internal concordances: " ++ toString resp.StatusCode),
          [Call.Do req])
      else
        match net.DecodeConcordances resp.Body with
        | .error err => (.error err, [Call.Do req])
        | .ok internalConcordancesResp =>
          (.ok (taggedConcepts internalConcordancesResp), [Call.Do req])

/-- The loop of `ServeHTTP` (lines 214-220) over the posterior.  The constant
`0.00000001` is kept exact: as a `float64` it is the double just above 10⁻⁸, and no double
lies between the two, so on doubles both comparisons select the same labels. -/
def selectConceptsIDs (probs : GoMap String Float64) : List String :=
  probs.entries.foldl
    (fun conceptsIDs kv =>
      if Float64.ge kv.2 (.finite 0.00000001) then conceptsIDs ++ [kv.1] else conceptsIDs)
    []

/-- Method `suggestionHandler.ServeHTTP` (lines 203-243), on the route parameter `uuid`. -/
def ServeHTTP {C : Type} (mb : Multibayes C) (net : Net) (h : suggestionHandler C)
    (contentUUID : String) : Response × List Call :=
  match extractText h.reko contentUUID with
  | (.error err, l1) => (.Error err 500, l1)
  | (.ok text, l1) =>
    let probs := mb.Posterior h.classifier text
    let conceptsIDs := selectConceptsIDs probs
    if conceptsIDs.length = 0 then (.Error "no concepts" 404, l1)
    else
      match retrieveConcepts net h conceptsIDs with
      | (.error err, l2) => (.Error err 500, l1 ++ l2)
      | (.ok concepts, l2) =>
        match net.MarshalSuggestions ⟨concepts⟩ with
        | .error err => (.Error err 500, l1 ++ l2)
        | .ok bytes => (.Write "application/json" bytes, l1 ++ l2)

/-- How `app.Action` ends: a panic, or the serving phase (handler constructed, route
registered, listener started). -/
inductive Startup (C : Type) where
  | panic (err : Err)
  | serving (handler : suggestionHandler C) (route addr : String)

/-- The training loop of `main` (lines 74-78). -/
def trainClassifier {C : Type} (mb : Multibayes C) (trainingSet : List trainingItem) : C :=
  trainingSet.foldl (fun classifier item => mb.Add classifier item.text item.concepts)
    (mb.SetMinClassSize mb.NewClassifier 0)

/-- The body of `app.Action` in `main` (lines 56-103). -/
def Action {C : Type} (sys : Sys) (mb : Multibayes C) (net : Net)
    (awsRegion awsAccessKeyID awsSecretAccessKey apiKey : String) : Startup C :=
  match sys.NewSession awsRegion awsAccessKeyID awsSecretAccessKey with
  | .error err => .panic err
  | .ok reko =>
    if sys.StatIsNotExist "./classifier.json" then
      match buildTrainingSet sys reko net apiKey with
      | .error err => .panic err
      | .ok (trainingSet, _) =>
        let classifier := trainClassifier mb trainingSet
        match mb.Marshal classifier with
        | .error err => .panic err
        | .ok bytes =>
          match sys.WriteFile "./classifier.json" bytes with
          | .error err => .panic err
          | .ok _ => .serving ⟨reko, classifier, apiKey⟩ "/content/:uuid/suggest" ":8080"
    else
      match mb.LoadClassifierFromFile "./classifier.json" with
      | .error err => .panic err
      | .ok classifier => .serving ⟨reko, classifier, apiKey⟩ "/content/:uuid/suggest" ":8080"

/-! ## A concrete deployment

Three graphics: `u1` has two text lines and annotations, the annotation lookup of `u2`
fails in transport, `u3` has no text line.  The classifier state is the list of the
items it was trained on. -/

def exReko : Rekognition where
  DetectText := fun _ name =>
    if name = "u1" then
      .ok [⟨"LINE", "cat sat"⟩, ⟨"WORD", "cat"⟩, ⟨"LINE", "on mat"⟩]
    else if name = "u2" then .ok [⟨"LINE", "dog ran"⟩]
    else if name = "u3" then .ok [⟨"WORD", "fast"⟩]
    else .error "rekognition: object not found"

def exConcordances : InternalConcordancesResponse where
  Concepts :=
    ⟨[("animal", ⟨"animal", "http://api.ft.com/things/animal", "Topic", "Animals", some false,
        about⟩)], by decide⟩

def exNet : Net where
  NewRequest := fun _ _ => none
  Do := fun req =>
    if req.URL = "http://test.api.ft.com/content/u1/annotations" then .ok ⟨200, "A1"⟩
    else if req.URL = "http://test.api.ft.com/content/u2/annotations" then
      .error "connection refused"
    else if req.URL = "http://test.api.ft.com/content/u3/annotations" then .ok ⟨200, "A3"⟩
    else if req.Header = [("x-api-key", "expired")] then .ok ⟨503, ""⟩
    else if req.URL = "http://test.api.ft.com/internalconcordances?ids=animal" then
      .ok ⟨200, "K"⟩
    else .ok ⟨404, ""⟩
  DecodeAnnotations := fun body =>
    if body = "A1" then
      .ok [⟨mentions, "http://api.ft.com/things/animal"⟩,
           ⟨"http://www.ft.com/ontology/annotation/hasAuthor", "http://api.ft.com/things/bob"⟩,
           ⟨about, "pets"⟩]
    else if body = "A3" then .ok [⟨about, "http://api.ft.com/things/speed"⟩]
    else .error "unexpected end of JSON input"
  DecodeConcordances := fun body =>
    if body = "K" then .ok exConcordances else .error "unexpected end of JSON input"
  MarshalSuggestions := fun r => .ok (String.intercalate "," (r.Suggestions.map (fun c => c.ID)))

def exPosterior : GoMap String Float64 :=
  ⟨[("noise", .finite 0.000000001), ("animal", .finite 0.5), ("broken", .nan)], by decide⟩

def exMultibayes : Multibayes (List trainingItem) where
  NewClassifier := []
  SetMinClassSize := fun c _ => c
  Add := fun c text concepts => c ++ [⟨text, concepts⟩]
  Posterior := fun c _ => if c = [] then ⟨[], List.nodup_nil⟩ else exPosterior
  Marshal := fun _ => .ok "classifier"
  LoadClassifierFromFile := fun _ => .error "open ./classifier.json: permission denied"

def exSys : Sys where
  NewSession := fun _ _ _ => .ok exReko
  StatIsNotExist := fun _ => true
  ReadFile := fun _ => .ok "[u1,u2,u3]"
  WriteFile := fun _ _ => .ok ()
  UnmarshalUUIDs := fun _ => ["u1", "u2", "u3"]

/-- The same system once `./classifier.json` exists. -/
def exSysPersisted : Sys :=
  { exSys with StatIsNotExist := fun _ => false }

/-- A handler whose classifier was trained on one item. -/
def exHandler : suggestionHandler (List trainingItem) :=
  ⟨exReko, [⟨"dog ran ", ["animal"]⟩], "key"⟩

/-- The same handler with an API key the concordance endpoint answers 503 to. -/
def exHandlerExpired : suggestionHandler (List trainingItem) :=
  ⟨exReko, [⟨"dog ran ", ["animal"]⟩], "expired"⟩

/-- A handler whose classifier was trained on nothing. -/
def exHandlerUntrained : suggestionHandler (List trainingItem) :=
  ⟨exReko, [], "key"⟩

/-! ## Loop lemmas -/

theorem extractTextLines_foldl (ds : List TextDetection) (init : String) :
    ds.foldl
      (fun result textDetection =>
        if textDetection.Type_ = "LINE" then result ++ (textDetection.DetectedText ++ " ")
        else result)
      init
    = init ++ String.join
        (((ds.filter (fun d => d.Type_ = "LINE")).map (fun d => d.DetectedText)).map
          (fun t => t ++ " ")) := by
  induction ds generalizing init with
  | nil => apply String.ext; simp
  | cons d ds ih =>
    rw [List.foldl_cons, ih]
    by_cases hd : d.Type_ = "LINE"
    · apply String.ext; simp [hd, List.filter_cons]
    · simp [hd, List.filter_cons]

theorem intercalate_go_data (sep : String) (l : List String) (acc : String) :
    (String.intercalate.go acc sep l).data
      = acc.data ++ (l.map (fun t => sep.data ++ t.data)).flatten := by
  induction l generalizing acc with
  | nil => simp [String.intercalate.go]
  | cons a l ih => simp [String.intercalate.go, ih, List.append_assoc]

theorem flatten_trailing_sep {α : Type} (sep a : List α) (l : List (List α)) :
    ((a :: l).map (fun t => t ++ sep)).flatten
      = a ++ (l.map (fun t => sep ++ t)).flatten ++ sep := by
  induction l generalizing a with
  | nil => simp
  | cons b l ih =>
    have hb := ih b
    simp only [List.map_cons, List.flatten_cons] at hb ⊢
    rw [hb]
    simp [List.append_assoc]

theorem join_trailing_sep (sep : String) (a : String) (l : List String) :
    String.join ((a :: l).map (fun t => t ++ sep)) = String.intercalate sep (a :: l) ++ sep := by
  apply String.ext
  have h := flatten_trailing_sep sep.data a.data (l.map String.data)
  simp only [String.intercalate, String.data_append, intercalate_go_data, String.data_join,
    List.map_cons, List.map_map, List.flatten_cons] at h ⊢
  simpa [Function.comp_def] using h

theorem buildTrainingSetLoop_foldl (reko : Rekognition) (net : Net) (apiKey : String)
    (uuids : List String) (acc : List trainingItem × List Call) :
    (uuids.foldl
      (fun (acc : List trainingItem × List Call) uuid =>
        match extractText reko uuid with
        | (.error _, l1) => (acc.1, acc.2 ++ l1)
        | (.ok text, l1) =>
          match getAnnotationConcepts net uuid apiKey with
          | (.error _, l2) => (acc.1, acc.2 ++ l1 ++ l2)
          | (.ok concepts, l2) => (acc.1 ++ [⟨text, concepts⟩], acc.2 ++ l1 ++ l2))
      acc).1
    = acc.1 ++ uuids.filterMap (fun uuid =>
        match (extractText reko uuid).1, (getAnnotationConcepts net uuid apiKey).1 with
        | .ok text, .ok concepts => some ⟨text, concepts⟩
        | _, _ => none) := by
  induction uuids generalizing acc with
  | nil => simp
  | cons uuid uuids ih =>
    rw [List.foldl_cons, ih]
    rcases he : extractText reko uuid with ⟨_ | text, l1⟩
    · simp [he, List.filterMap_cons]
    · rcases ha : getAnnotationConcepts net uuid apiKey with ⟨_ | concepts, l2⟩
      · simp [he, ha, List.filterMap_cons]
      · simp [he, ha, List.filterMap_cons]

theorem lastIndexChars_slash (s : List Char) :
    (lastIndexChars ['/'] s = -1 ∧ '/' ∉ s) ∨
      ∃ pre suf, s = pre ++ '/' :: suf ∧ lastIndexChars ['/'] s = pre.length ∧ '/' ∉ suf := by
  induction s with
  | nil => left; simp [lastIndexChars]
  | cons c cs ih =>
    rcases ih with ⟨hr, hn⟩ | ⟨pre, suf, hs, hr, hn⟩
    · by_cases hc : c = '/'
      · right
        refine ⟨[], cs, by simp [hc], ?_, hn⟩
        simp [lastIndexChars, hr, hc, List.isPrefixOf]
      · left
        refine ⟨?_, ?_⟩
        · have hc2 : ¬ ('/' = c) := fun h => hc h.symm
          simp [lastIndexChars, hr, List.isPrefixOf, hc2]
        · simp only [List.mem_cons, not_or]
          exact ⟨fun h => hc h.symm, hn⟩
    · right
      refine ⟨c :: pre, suf, by simp [hs], ?_, hn⟩
      have h0 : (0 : Int) ≤ (pre.length : Int) := Int.natCast_nonneg _
      simp [lastIndexChars, hr, h0]

theorem annotationConcepts_foldl (annotations : List annotation) (init : List String) :
    annotations.foldl
      (fun concepts a =>
        if a.Predicate = mentions ∨ a.Predicate = about then concepts ++ [conceptUUID a.Id]
        else concepts)
      init
    = init ++ (annotations.filter
        (fun a => decide (a.Predicate = about ∨ a.Predicate = mentions))).map
          (fun a => conceptUUID a.Id) := by
  induction annotations generalizing init with
  | nil => simp
  | cons a l ih =>
    rw [List.foldl_cons, ih]
    by_cases h : a.Predicate = mentions ∨ a.Predicate = about
    · have h2 : a.Predicate = about ∨ a.Predicate = mentions := h.symm
      simp [h, h2, List.filter_cons]
    · have h2 : ¬ (a.Predicate = about ∨ a.Predicate = mentions) := fun x => h x.symm
      simp [h, h2, List.filter_cons]

theorem extractText_snd (reko : Rekognition) (uuid : String) :
    (extractText reko uuid).2 = [Call.DetectText s3bucketName uuid] := by
  unfold extractText
  cases reko.DetectText s3bucketName uuid <;> rfl

theorem selectConceptsIDs_foldl (entries : List (String × Float64)) (init : List String) :
    entries.foldl
      (fun conceptsIDs kv =>
        if Float64.ge kv.2 (.finite 0.00000001) then conceptsIDs ++ [kv.1] else conceptsIDs)
      init
    = init ++ (entries.filter (fun kv => Float64.ge kv.2 (.finite 0.00000001))).map Prod.fst := by
  induction entries generalizing init with
  | nil => simp
  | cons kv l ih =>
    rw [List.foldl_cons, ih]
    by_cases h : Float64.ge kv.2 (.finite 0.00000001) = true
    · simp [h, List.filter_cons]
    · simp [h, List.filter_cons]

theorem selectConceptsIDs_eq (probs : GoMap String Float64) :
    selectConceptsIDs probs
      = (probs.entries.filter (fun kv => Float64.ge kv.2 (.finite 0.00000001))).map Prod.fst := by
  have h := selectConceptsIDs_foldl probs.entries []
  simpa [selectConceptsIDs] using h

theorem selectConceptsIDs_mem (probs : GoMap String Float64) (id : String) :
    id ∈ selectConceptsIDs probs
      ↔ ∃ p, (id, p) ∈ probs.entries ∧ Float64.ge p (.finite 0.00000001) = true := by
  rw [selectConceptsIDs_eq]
  simp only [List.mem_map, List.mem_filter]
  constructor
  · rintro ⟨⟨k, p⟩, ⟨hm, hp⟩, rfl⟩
    exact ⟨p, hm, hp⟩
  · rintro ⟨p, hm, hp⟩
    exact ⟨(id, p), ⟨hm, hp⟩, rfl⟩

theorem selectConceptsIDs_nodup (probs : GoMap String Float64) :
    (selectConceptsIDs probs).Nodup := by
  rw [selectConceptsIDs_eq]
  exact List.Nodup.sublist (List.Sublist.map _ (List.filter_sublist _)) probs.nodup

theorem selectConceptsIDs_eq_nil (probs : GoMap String Float64) :
    selectConceptsIDs probs = []
      ↔ ∀ kv ∈ probs.entries, Float64.ge kv.2 (.finite 0.00000001) = false := by
  rw [selectConceptsIDs_eq]
  simp [List.filter_eq_nil_iff]

theorem taggedConcepts_foldl (entries : List (String × Concept)) (init : List Concept) :
    entries.foldl (fun concepts kc => concepts ++ [{ kc.2 with Predicate := mentions }]) init
      = init ++ entries.map (fun kc => { kc.2 with Predicate := mentions }) := by
  induction entries generalizing init with
  | nil => simp
  | cons kc l ih => rw [List.foldl_cons, ih]; simp

theorem requestURLLoop_foldl (conceptsIDs : List String) (init : String) :
    conceptsIDs.foldl
      (fun requestURL conceptsID => requestURL ++ ("ids=" ++ conceptsID ++ "&")) init
    = init ++ String.join ((conceptsIDs.map (fun id => "ids=" ++ id)).map (fun t => t ++ "&")) := by
  induction conceptsIDs generalizing init with
  | nil => apply String.ext; simp
  | cons id l ih =>
    rw [List.foldl_cons, ih]
    apply String.ext
    simp

theorem requestURLLoop_eq (id : String) (conceptsIDs : List String) :
    requestURLLoop (id :: conceptsIDs)
      = "http://test.api.ft.com/internalconcordances?"
        ++ String.intercalate "&" ((id :: conceptsIDs).map (fun id => "ids=" ++ id)) ++ "&" := by
  unfold requestURLLoop
  rw [requestURLLoop_foldl, List.map_cons, join_trailing_sep, String.append_assoc]

theorem sliceDropLast_append (s : String) : sliceDropLast (s ++ "&") = s := by
  apply String.ext
  have h : ("&" : String).data = ['&'] := rfl
  simp [sliceDropLast, h]

theorem retrieveConcepts_log {C : Type} (net : Net) (h : suggestionHandler C)
    (conceptsIDs : List String) :
    (retrieveConcepts net h conceptsIDs).2 = [] ∨
    (retrieveConcepts net h conceptsIDs).2
      = [Call.Do ⟨"GET", requestURL conceptsIDs, [("x-api-key", h.apiKey)]⟩] := by
  unfold retrieveConcepts
  cases net.NewRequest "GET" (requestURL conceptsIDs) with
  | some err => left; rfl
  | none =>
    right
    simp only
    cases net.Do ⟨"GET", requestURL conceptsIDs, [("x-api-key", h.apiKey)]⟩ with
    | error err => rfl
    | ok resp =>
      simp only
      split
      · rfl
      · cases net.DecodeConcordances resp.Body <;> rfl

theorem ServeHTTP_extract_error {C : Type} (mb : Multibayes C) (net : Net)
    (h : suggestionHandler C) (contentUUID : String) (err : Err)
    (hx : (extractText h.reko contentUUID).1 = .error err) :
    ServeHTTP mb net h contentUUID
      = (.Error err 500, [Call.DetectText s3bucketName contentUUID]) := by
  have hl := extractText_snd h.reko contentUUID
  rcases he : extractText h.reko contentUUID with ⟨r, l1⟩
  rw [he] at hx hl
  simp only at hx hl
  subst hx hl
  simp only [ServeHTTP, he]

theorem ServeHTTP_empty {C : Type} (mb : Multibayes C) (net : Net)
    (h : suggestionHandler C) (contentUUID text : String)
    (hx : (extractText h.reko contentUUID).1 = .ok text)
    (hsel : selectConceptsIDs (mb.Posterior h.classifier text) = []) :
    ServeHTTP mb net h contentUUID
      = (.Error "no concepts" 404, [Call.DetectText s3bucketName contentUUID]) := by
  have hl := extractText_snd h.reko contentUUID
  rcases he : extractText h.reko contentUUID with ⟨r, l1⟩
  rw [he] at hx hl
  simp only at hx hl
  subst hx hl
  simp only [ServeHTTP, he, hsel, List.length_nil, if_true]

theorem ServeHTTP_nonempty {C : Type} (mb : Multibayes C) (net : Net)
    (h : suggestionHandler C) (contentUUID text : String)
    (hx : (extractText h.reko contentUUID).1 = .ok text)
    (hsel : selectConceptsIDs (mb.Posterior h.classifier text) ≠ []) :
    ServeHTTP mb net h contentUUID
      = match retrieveConcepts net h (selectConceptsIDs (mb.Posterior h.classifier text)) with
        | (.error err, l2) => (.Error err 500, [Call.DetectText s3bucketName contentUUID] ++ l2)
        | (.ok concepts, l2) =>
          match net.MarshalSuggestions ⟨concepts⟩ with
          | .error err => (.Error err 500, [Call.DetectText s3bucketName contentUUID] ++ l2)
          | .ok bytes =>
            (.Write "application/json" bytes, [Call.DetectText s3bucketName contentUUID] ++ l2) := by
  have hl := extractText_snd h.reko contentUUID
  rcases he : extractText h.reko contentUUID with ⟨r, l1⟩
  rw [he] at hx hl
  simp only at hx hl
  subst hx hl
  have hlen : ¬ (selectConceptsIDs (mb.Posterior h.classifier text)).length = 0 := by
    simpa [List.length_eq_zero] using hsel
  simp only [ServeHTTP, he, hlen, if_false]

theorem ServeHTTP_nonempty_status {C : Type} (mb : Multibayes C) (net : Net)
    (h : suggestionHandler C) (contentUUID text : String)
    (hx : (extractText h.reko contentUUID).1 = .ok text)
    (hsel : selectConceptsIDs (mb.Posterior h.classifier text) ≠ []) :
    ((ServeHTTP mb net h contentUUID).1.status = 500 ∨
      (ServeHTTP mb net h contentUUID).1.status = 200) ∧
    (ServeHTTP mb net h contentUUID).2
      = Call.DetectText s3bucketName contentUUID
        :: (retrieveConcepts net h (selectConceptsIDs (mb.Posterior h.classifier text))).2 := by
  rw [ServeHTTP_nonempty mb net h contentUUID text hx hsel]
  rcases retrieveConcepts net h (selectConceptsIDs (mb.Posterior h.classifier text))
    with ⟨_ | concepts, l2⟩
  · exact ⟨Or.inl rfl, rfl⟩
  · simp only
    cases net.MarshalSuggestions ⟨concepts⟩ with
    | error err => exact ⟨Or.inl rfl, rfl⟩
    | ok bytes => exact ⟨Or.inr rfl, rfl⟩

theorem retrieveConcepts_newRequest_error {C : Type} (net : Net) (h : suggestionHandler C)
    (conceptsIDs : List String) (err : Err)
    (hreq : net.NewRequest "GET" (requestURL conceptsIDs) = some err) :
    retrieveConcepts net h conceptsIDs = (.error err, []) := by
  simp only [retrieveConcepts, hreq]

theorem retrieveConcepts_log_sent {C : Type} (net : Net) (h : suggestionHandler C)
    (conceptsIDs : List String)
    (hreq : net.NewRequest "GET" (requestURL conceptsIDs) = none) :
    (retrieveConcepts net h conceptsIDs).2
      = [Call.Do ⟨"GET", requestURL conceptsIDs, [("x-api-key", h.apiKey)]⟩] := by
  rcases retrieveConcepts_log net h conceptsIDs with hl | hl
  · exfalso
    revert hl
    simp only [retrieveConcepts, hreq]
    cases net.Do ⟨"GET", requestURL conceptsIDs, [("x-api-key", h.apiKey)]⟩ with
    | error err => simp
    | ok resp =>
      simp only
      split
      · simp
      · cases net.DecodeConcordances resp.Body <;> simp
  · exact hl

/-! ## Training-set construction -/

/-- C1: whenever the identifier file is read, `buildTrainingSet` returns one item for each
identifier whose `extractText` and `getAnnotationConcepts` both succeed, made of that
identifier's text and labels, in the order of the identifiers; an identifier for which
either call fails contributes nothing and the identifiers after it are still processed. -/
theorem buildTrainingSet_items (sys : Sys) (reko : Rekognition) (net : Net) (apiKey : String)
    (uuids : List String) (h : getGraphicsUUIDs sys = .ok uuids) :
    ∃ log, buildTrainingSet sys reko net apiKey
      = .ok (uuids.filterMap (fun uuid =>
          match (extractText reko uuid).1, (getAnnotationConcepts net uuid apiKey).1 with
          | .ok text, .ok concepts => some ⟨text, concepts⟩
          | _, _ => none), log) := by
  refine ⟨(buildTrainingSetLoop reko net apiKey uuids).2, ?_⟩
  have hl := buildTrainingSetLoop_foldl reko net apiKey uuids ([], [])
  simp only [List.nil_append] at hl
  simp only [buildTrainingSet, h]
  congr 1
  exact Prod.ext hl rfl

/-- Scenario D: of three identifiers the middle one's annotation lookup fails; two items
are produced, the first and the third. -/
theorem buildTrainingSet_items_witness :
    getGraphicsUUIDs exSys = .ok ["u1", "u2", "u3"] ∧
    (getAnnotationConcepts exNet "u2" "key").1 = .error "connection refused" ∧
    ∃ log, buildTrainingSet exSys exReko exNet "key"
      = .ok ([⟨"cat sat on mat ", ["animal", "pets"]⟩, ⟨"", ["speed"]⟩], log) := by
  obtain ⟨log, h⟩ := buildTrainingSet_items exSys exReko exNet "key" ["u1", "u2", "u3"] rfl
  refine ⟨rfl, rfl, log, ?_⟩
  rw [h]
  exact congrArg (fun items => Except.ok (items, log)) (by decide)

/-! ## Text extraction -/

/-- C7, as stated, fails: a single LINE fragment `a` gives the text `a` followed by a
space, which is not the space-separated concatenation of the line texts (`a`). -/
theorem extractText_space_separated_counterexample :
    (extractText ⟨fun _ _ => .ok [⟨"LINE", "a"⟩]⟩ "u").1 = .ok "a " ∧
    "a " ≠ String.intercalate " "
      ((([⟨"LINE", "a"⟩] : List TextDetection).filter (fun d => d.Type_ = "LINE")).map
        (fun d => d.DetectedText)) :=
  ⟨rfl, by decide⟩

/-- C7, amended: the text produced by `extractText` is the detected text of each fragment
of type LINE, in detection order, each followed by one space: fragments of another type
contribute nothing, without a LINE fragment the text is empty (and there is no error),
and otherwise it is the line texts separated by single spaces plus one trailing space. -/
theorem extractText_lines (reko : Rekognition) (uuid : String) (ds : List TextDetection)
    (h : reko.DetectText s3bucketName uuid = .ok ds) :
    (extractText reko uuid).1
      = .ok (String.join
          (((ds.filter (fun d => d.Type_ = "LINE")).map (fun d => d.DetectedText)).map
            (fun t => t ++ " "))) ∧
    (extractText reko uuid).1
      = .ok (if (ds.filter (fun d => d.Type_ = "LINE")).map (fun d => d.DetectedText) = [] then ""
          else String.intercalate " "
            ((ds.filter (fun d => d.Type_ = "LINE")).map (fun d => d.DetectedText)) ++ " ") := by
  have hj := extractTextLines_foldl ds ""
  have he : (extractText reko uuid).1 = .ok (extractTextLines ds) := by
    simp only [extractText, h]
  have hd : extractTextLines ds = String.join
      (((ds.filter (fun d => d.Type_ = "LINE")).map (fun d => d.DetectedText)).map
        (fun t => t ++ " ")) := by
    unfold extractTextLines
    rw [hj]
    apply String.ext
    simp
  refine ⟨by rw [he, hd], ?_⟩
  rw [he, hd]
  congr 1
  cases hl : (ds.filter (fun d => d.Type_ = "LINE")).map (fun d => d.DetectedText) with
  | nil => rfl
  | cons a l => rw [join_trailing_sep]; simp

/-- Two lines around a WORD fragment: the text is `cat sat on mat` with a trailing space. -/
theorem extractText_lines_witness :
    exReko.DetectText s3bucketName "u1"
      = .ok [⟨"LINE", "cat sat"⟩, ⟨"WORD", "cat"⟩, ⟨"LINE", "on mat"⟩] ∧
    (extractText exReko "u1").1 = .ok "cat sat on mat " := by
  refine ⟨rfl, ?_⟩
  rw [(extractText_lines exReko "u1" _ rfl).1]
  exact congrArg Except.ok (by decide)

/-! ## Annotation lookup -/

/-- C6: on a decoded list of pairs `getAnnotationConcepts` returns, in list order, one
label for each pair whose predicate is "about" or "mentions" and nothing for the others;
the slice index of a label is within the bounds of the id, the label has no `/`, and it
is what follows the last `/` of the id (the whole id when the id has none). -/
theorem getAnnotationConcepts_labels (net : Net) (uuid apiKey : String) (resp : HTTPResponse)
    (annotations : List annotation)
    (hreq : net.NewRequest "GET" ("http://test.api.ft.com/content/" ++ uuid ++ "/annotations")
      = none)
    (hdo : net.Do ⟨"GET", "http://test.api.ft.com/content/" ++ uuid ++ "/annotations",
      [("x-api-key", apiKey)]⟩ = .ok resp)
    (hdec : net.DecodeAnnotations resp.Body = .ok annotations) :
    (getAnnotationConcepts net uuid apiKey).1
      = .ok ((annotations.filter
          (fun a => decide (a.Predicate = about ∨ a.Predicate = mentions))).map
            (fun a => conceptUUID a.Id)) ∧
    ∀ Id : String,
      (0 ≤ LastIndex Id "/" + 1 ∧ LastIndex Id "/" + 1 ≤ len Id) ∧
      '/' ∉ (conceptUUID Id).data ∧
      (('/' ∉ Id.data ∧ conceptUUID Id = Id) ∨
        ∃ before : String, Id = before ++ "/" ++ conceptUUID Id) := by
  constructor
  · have hl := annotationConcepts_foldl annotations []
    simp only [List.nil_append] at hl
    simp only [getAnnotationConcepts, hreq, hdo, hdec, annotationConcepts, hl]
  · intro Id
    have hs : ("/" : String).data = ['/'] := rfl
    rcases lastIndexChars_slash Id.data with ⟨hr, hn⟩ | ⟨pre, suf, hs2, hr, hn⟩
    · have hu : conceptUUID Id = Id := by
        apply String.ext
        simp [conceptUUID, sliceFrom, LastIndex, hs, hr]
      refine ⟨?_, ?_, Or.inl ⟨hn, hu⟩⟩
      · simp only [LastIndex, hs, hr, len]
        constructor
        · decide
        · have := Int.natCast_nonneg Id.data.length
          omega
      · rw [hu]; exact hn
    · have hu : (conceptUUID Id).data = suf := by
        simp only [conceptUUID, sliceFrom, LastIndex, hs, hr]
        have : ((pre.length : Int) + 1).toNat = pre.length + 1 := by omega
        rw [this, hs2]
        simp
      refine ⟨?_, ?_, Or.inr ⟨⟨pre⟩, ?_⟩⟩
      · simp only [LastIndex, hs, hr, len]
        constructor
        · omega
        · rw [hs2]; simp
      · rw [hu]; exact hn
      · apply String.ext
        simp [hu, hs2]

/-- Three pairs (mentions, hasAuthor, about): two labels, `animal` cut after the last
`/` and `pets` kept whole. -/
theorem getAnnotationConcepts_labels_witness :
    exNet.NewRequest "GET" ("http://test.api.ft.com/content/" ++ "u1" ++ "/annotations") = none ∧
    (getAnnotationConcepts exNet "u1" "key").1 = .ok ["animal", "pets"] ∧
    conceptUUID "http://api.ft.com/things/animal" = "animal" := by
  have h := getAnnotationConcepts_labels exNet "u1" "key" ⟨200, "A1"⟩
    [⟨mentions, "http://api.ft.com/things/animal"⟩,
     ⟨"http://www.ft.com/ontology/annotation/hasAuthor", "http://api.ft.com/things/bob"⟩,
     ⟨about, "pets"⟩] rfl rfl rfl
  refine ⟨rfl, ?_, by decide⟩
  rw [h.1]
  exact congrArg Except.ok (by decide)

/-! ## The suggestion handler -/

/-- C2: when text extraction succeeds, `ServeHTTP` answers 404 if and only if no label of
the posterior has a probability at or above 0.00000001; the 404 answer is the plain
message "no concepts", and in that case nothing is sent to the concordance endpoint. -/
theorem ServeHTTP_notFound_iff {C : Type} (mb : Multibayes C) (net : Net)
    (h : suggestionHandler C) (contentUUID text : String)
    (hx : (extractText h.reko contentUUID).1 = .ok text) :
    ((ServeHTTP mb net h contentUUID).1.status = 404
      ↔ ∀ kv ∈ (mb.Posterior h.classifier text).entries,
          Float64.ge kv.2 (.finite 0.00000001) = false) ∧
    ((ServeHTTP mb net h contentUUID).1.status = 404 →
      (ServeHTTP mb net h contentUUID).1 = .Error "no concepts" 404 ∧
      ∀ req, Call.Do req ∉ (ServeHTTP mb net h contentUUID).2) := by
  by_cases hsel : selectConceptsIDs (mb.Posterior h.classifier text) = []
  · have hs := ServeHTTP_empty mb net h contentUUID text hx hsel
    refine ⟨⟨fun _ => (selectConceptsIDs_eq_nil _).1 hsel, fun _ => by rw [hs]; rfl⟩, ?_⟩
    intro _
    rw [hs]
    exact ⟨rfl, by simp⟩
  · have hs := (ServeHTTP_nonempty_status mb net h contentUUID text hx hsel).1
    have hne : (ServeHTTP mb net h contentUUID).1.status ≠ 404 := by
      rcases hs with h5 | h2
      · rw [h5]; decide
      · rw [h2]; decide
    refine ⟨⟨fun h4 => absurd h4 hne, fun hall => ?_⟩, fun h4 => absurd h4 hne⟩
    exact absurd ((selectConceptsIDs_eq_nil _).2 hall) hsel

/-- An untrained classifier has an empty posterior: the answer for `u1` is 404. -/
theorem ServeHTTP_notFound_iff_witness :
    (extractText exHandlerUntrained.reko "u1").1 = .ok "cat sat on mat " ∧
    (ServeHTTP exMultibayes exNet exHandlerUntrained "u1").1.status = 404 :=
  ⟨rfl, (ServeHTTP_notFound_iff exMultibayes exNet exHandlerUntrained "u1" "cat sat on mat "
    rfl).1.2 (by intro kv hkv; cases hkv)⟩

/-- C3: when text extraction succeeds, the list of identifiers `ServeHTTP` passes to
`retrieveConcepts` holds a label exactly when the posterior gives it a probability at or
above 0.00000001, and holds no label twice; the requests `ServeHTTP` sends after the
extraction are those of `retrieveConcepts` on that list (none when the list is empty). -/
theorem ServeHTTP_concordance_ids {C : Type} (mb : Multibayes C) (net : Net)
    (h : suggestionHandler C) (contentUUID text : String)
    (hx : (extractText h.reko contentUUID).1 = .ok text) :
    (∀ id, id ∈ selectConceptsIDs (mb.Posterior h.classifier text)
      ↔ ∃ p, (id, p) ∈ (mb.Posterior h.classifier text).entries ∧
          Float64.ge p (.finite 0.00000001) = true) ∧
    (selectConceptsIDs (mb.Posterior h.classifier text)).Nodup ∧
    (ServeHTTP mb net h contentUUID).2
      = if selectConceptsIDs (mb.Posterior h.classifier text) = [] then
          [Call.DetectText s3bucketName contentUUID]
        else
          Call.DetectText s3bucketName contentUUID
            :: (retrieveConcepts net h (selectConceptsIDs (mb.Posterior h.classifier text))).2 := by
  refine ⟨selectConceptsIDs_mem _, selectConceptsIDs_nodup _, ?_⟩
  by_cases hsel : selectConceptsIDs (mb.Posterior h.classifier text) = []
  · rw [ServeHTTP_empty mb net h contentUUID text hx hsel, if_pos hsel]
  · rw [(ServeHTTP_nonempty_status mb net h contentUUID text hx hsel).2, if_neg hsel]

/-- Of the posterior noise 0.000000001, animal 0.5, broken NaN, only `animal` is passed on,
in the request `?ids=animal`. -/
theorem ServeHTTP_concordance_ids_witness :
    (extractText exHandler.reko "u2").1 = .ok "dog ran " ∧
    selectConceptsIDs (exMultibayes.Posterior exHandler.classifier "dog ran ") = ["animal"] ∧
    (ServeHTTP exMultibayes exNet exHandler "u2").2
      = [Call.DetectText s3bucketName "u2",
         Call.Do ⟨"GET", "http://test.api.ft.com/internalconcordances?ids=animal",
           [("x-api-key", "key")]⟩] := by
  have h := ServeHTTP_concordance_ids exMultibayes exNet exHandler "u2" "dog ran " rfl
  have hsel : selectConceptsIDs (exMultibayes.Posterior exHandler.classifier "dog ran ")
      = ["animal"] := by decide!
  refine ⟨rfl, hsel, ?_⟩
  rw [h.2.2, hsel]
  decide!

/-- C4: if text extraction returns an error, or if a label clears the threshold and the
concordance request fails in transport, comes back with a status other than 200, or
comes back with a body that does not decode, then `ServeHTTP` answers with nothing but
`http.Error` of that error's message and status 500: no list of suggestions is written. -/
theorem ServeHTTP_collaborator_failure {C : Type} (mb : Multibayes C) (net : Net)
    (h : suggestionHandler C) (contentUUID : String) (err : Err)
    (hfail : (extractText h.reko contentUUID).1 = .error err ∨
      ∃ text, (extractText h.reko contentUUID).1 = .ok text ∧
        selectConceptsIDs (mb.Posterior h.classifier text) ≠ [] ∧
        net.NewRequest "GET" (requestURL (selectConceptsIDs (mb.Posterior h.classifier text)))
          = none ∧
        (net.Do ⟨"GET", requestURL (selectConceptsIDs (mb.Posterior h.classifier text)),
            [("x-api-key", h.apiKey)]⟩ = .error err ∨
          ∃ resp, net.Do ⟨"GET", requestURL (selectConceptsIDs (mb.Posterior h.classifier text)),
              [("x-api-key", h.apiKey)]⟩ = .ok resp ∧
            ((resp.StatusCode ≠ 200 ∧
                err = "unexpected status from internal concordances: "
                  ++ toString resp.StatusCode) ∨
              (resp.StatusCode = 200 ∧ net.DecodeConcordances resp.Body = .error err)))) :
    (ServeHTTP mb net h contentUUID).1 = .Error err 500 := by
  rcases hfail with hx | ⟨text, hx, hsel, hreq, hdo⟩
  · rw [ServeHTTP_extract_error mb net h contentUUID err hx]
  · rw [ServeHTTP_nonempty mb net h contentUUID text hx hsel]
    rcases hdo with hdo | ⟨resp, hdo, ⟨hs, he⟩ | ⟨hs, hdec⟩⟩
    · simp only [retrieveConcepts, hreq, hdo]
    · simp only [retrieveConcepts, hreq, hdo, hs, he, ne_eq, not_false_eq_true, if_true]
    · simp only [retrieveConcepts, hreq, hdo, hs, hdec, ne_eq, not_true_eq_false, if_false]

/-- Scenario C: the concordance endpoint answers 503; the response is the 500 error with
the status message. -/
theorem ServeHTTP_collaborator_failure_witness :
    (extractText exHandlerExpired.reko "u2").1 = .ok "dog ran " ∧
    exNet.Do ⟨"GET", "http://test.api.ft.com/internalconcordances?ids=animal",
      [("x-api-key", "expired")]⟩ = .ok ⟨503, ""⟩ ∧
    (ServeHTTP exMultibayes exNet exHandlerExpired "u2").1
      = .Error "unexpected status from internal concordances: 503" 500 := by
  have hsel : selectConceptsIDs (exMultibayes.Posterior exHandlerExpired.classifier "dog ran ")
      = ["animal"] := by decide!
  refine ⟨rfl, rfl, ?_⟩
  apply ServeHTTP_collaborator_failure
  right
  refine ⟨"dog ran ", rfl, by rw [hsel]; decide, by rw [hsel]; rfl, Or.inr ⟨⟨503, ""⟩, ?_, ?_⟩⟩
  · rw [hsel]; rfl
  · left
    exact ⟨by decide, by decide⟩

/-- C5: on a concordance response that decodes, `retrieveConcepts` returns one concept per
entry of the `concepts` mapping, in iteration order; each has the predicate
`http://www.ft.com/ontology/annotation/mentions` and the id, apiUrl, type, prefLabel and
isFTAuthor of the entry it comes from. -/
theorem retrieveConcepts_mentions {C : Type} (net : Net) (h : suggestionHandler C)
    (conceptsIDs : List String) (resp : HTTPResponse) (decoded : InternalConcordancesResponse)
    (hreq : net.NewRequest "GET" (requestURL conceptsIDs) = none)
    (hdo : net.Do ⟨"GET", requestURL conceptsIDs, [("x-api-key", h.apiKey)]⟩ = .ok resp)
    (hs : resp.StatusCode = 200)
    (hdec : net.DecodeConcordances resp.Body = .ok decoded) :
    (retrieveConcepts net h conceptsIDs).1
      = .ok (decoded.Concepts.entries.map (fun kc =>
          ⟨kc.2.ID, kc.2.APIURL, kc.2.Type_, kc.2.PrefLabel, kc.2.IsFTAuthor,
            "http://www.ft.com/ontology/annotation/mentions"⟩)) ∧
    (decoded.Concepts.entries.map (fun kc =>
      (⟨kc.2.ID, kc.2.APIURL, kc.2.Type_, kc.2.PrefLabel, kc.2.IsFTAuthor,
        "http://www.ft.com/ontology/annotation/mentions"⟩ : Concept))).length
      = decoded.Concepts.entries.length := by
  refine ⟨?_, List.length_map _ _⟩
  have ht := taggedConcepts_foldl decoded.Concepts.entries []
  simp only [List.nil_append] at ht
  simp only [retrieveConcepts, hreq, hdo, hs, hdec, ne_eq, not_true_eq_false, if_false,
    taggedConcepts, ht]
  rfl

/-- The concordance answer for `animal` carries the predicate "about"; the concept returned
carries "mentions" and is otherwise the same. -/
theorem retrieveConcepts_mentions_witness :
    exNet.DecodeConcordances "K" = .ok exConcordances ∧
    (exConcordances.Concepts.entries.map (fun kc => kc.2.Predicate))
      = ["http://www.ft.com/ontology/annotation/about"] ∧
    (retrieveConcepts exNet exHandler ["animal"]).1
      = .ok [⟨"animal", "http://api.ft.com/things/animal", "Topic", "Animals", some false,
          "http://www.ft.com/ontology/annotation/mentions"⟩] :=
  ⟨rfl, rfl,
    (retrieveConcepts_mentions exNet exHandler ["animal"] ⟨200, "K"⟩ exConcordances
      rfl rfl rfl rfl).1⟩

/-- C8, as stated, fails: `u3` has no LINE fragment, so its text is empty, yet a trained
classifier gives the label `animal` a posterior of 0.5 and `ServeHTTP` answers 200 with
the resolved concept, after a request to the concordance endpoint. -/
theorem ServeHTTP_empty_text_counterexample :
    (extractText exHandler.reko "u3").1 = .ok "" ∧
    ServeHTTP exMultibayes exNet exHandler "u3"
      = (.Write "application/json" "animal",
          [Call.DetectText s3bucketName "u3",
           Call.Do ⟨"GET", "http://test.api.ft.com/internalconcordances?ids=animal",
             [("x-api-key", "key")]⟩]) ∧
    (ServeHTTP exMultibayes exNet exHandler "u3").1.status ≠ 404 := by
  refine ⟨rfl, ?_, ?_⟩ <;> decide!

/-- C8, amended: for a content item whose extracted text is empty, `ServeHTTP` answers 404
exactly when the posterior of the empty text has no label at or above 0.00000001 (as for
a classifier trained on nothing); it then resolves no concepts. -/
theorem ServeHTTP_empty_text {C : Type} (mb : Multibayes C) (net : Net)
    (h : suggestionHandler C) (contentUUID : String)
    (hx : (extractText h.reko contentUUID).1 = .ok "") :
    ((ServeHTTP mb net h contentUUID).1.status = 404
      ↔ ∀ kv ∈ (mb.Posterior h.classifier "").entries,
          Float64.ge kv.2 (.finite 0.00000001) = false) ∧
    ((∀ kv ∈ (mb.Posterior h.classifier "").entries,
        Float64.ge kv.2 (.finite 0.00000001) = false) →
      ServeHTTP mb net h contentUUID
        = (.Error "no concepts" 404, [Call.DetectText s3bucketName contentUUID])) := by
  have hemp : (∀ kv ∈ (mb.Posterior h.classifier "").entries,
      Float64.ge kv.2 (.finite 0.00000001) = false) →
      ServeHTTP mb net h contentUUID
        = (.Error "no concepts" 404, [Call.DetectText s3bucketName contentUUID]) :=
    fun hall => ServeHTTP_empty mb net h contentUUID "" hx ((selectConceptsIDs_eq_nil _).2 hall)
  refine ⟨⟨fun h4 => ?_, fun hall => by rw [hemp hall]; rfl⟩, hemp⟩
  by_contra hall
  have hsel : selectConceptsIDs (mb.Posterior h.classifier "") ≠ [] :=
    fun hnil => hall ((selectConceptsIDs_eq_nil _).1 hnil)
  rcases (ServeHTTP_nonempty_status mb net h contentUUID "" hx hsel).1 with h5 | h2
  · rw [h5] at h4; exact absurd h4 (by decide)
  · rw [h2] at h4; exact absurd h4 (by decide)

/-- With a classifier trained on nothing the empty text of `u3` is answered 404. -/
theorem ServeHTTP_empty_text_witness :
    (extractText exHandlerUntrained.reko "u3").1 = .ok "" ∧
    ServeHTTP exMultibayes exNet exHandlerUntrained "u3"
      = (.Error "no concepts" 404, [Call.DetectText s3bucketName "u3"]) :=
  ⟨rfl, (ServeHTTP_empty_text exMultibayes exNet exHandlerUntrained "u3" rfl).2
    (by intro kv hkv; cases hkv)⟩

/-- C10: for a non-empty list of identifiers the request URL of `retrieveConcepts` is the
concordance base URL, which ends in `?`, followed by one `ids=<id>` per identifier in list
order, joined by `&`, with no trailing `&`: the character cut is the `&` after the last
identifier.  `retrieveConcepts` hands exactly that URL to `http.NewRequest` (whose error it
returns without sending anything) and otherwise sends one GET request to it with the API
key header.  `ServeHTTP` answers an empty selection with 404 and without a request, sends
the request of the selected labels when the selection is not empty, and every request it
has sent through `client.Do` was built by `retrieveConcepts` from a non-empty list. -/
theorem requestURL_ids (conceptsIDs : List String) (hne : conceptsIDs ≠ []) :
    requestURL conceptsIDs
      = "http://test.api.ft.com/internalconcordances?"
        ++ String.intercalate "&" (conceptsIDs.map (fun id => "ids=" ++ id)) ∧
    requestURLLoop conceptsIDs = requestURL conceptsIDs ++ "&" ∧
    (∀ (C : Type) (net : Net) (h : suggestionHandler C),
      (∀ err,
        net.NewRequest "GET" ("http://test.api.ft.com/internalconcordances?"
          ++ String.intercalate "&" (conceptsIDs.map (fun id => "ids=" ++ id))) = some err →
        retrieveConcepts net h conceptsIDs = (.error err, [])) ∧
      (net.NewRequest "GET" ("http://test.api.ft.com/internalconcordances?"
          ++ String.intercalate "&" (conceptsIDs.map (fun id => "ids=" ++ id))) = none →
        (retrieveConcepts net h conceptsIDs).2
          = [Call.Do ⟨"GET", "http://test.api.ft.com/internalconcordances?"
              ++ String.intercalate "&" (conceptsIDs.map (fun id => "ids=" ++ id)),
              [("x-api-key", h.apiKey)]⟩])) ∧
    (∀ (C : Type) (mb : Multibayes C) (net : Net) (h : suggestionHandler C)
      (contentUUID text : String),
      (extractText h.reko contentUUID).1 = .ok text →
      (selectConceptsIDs (mb.Posterior h.classifier text) = [] →
        ServeHTTP mb net h contentUUID
          = (.Error "no concepts" 404, [Call.DetectText s3bucketName contentUUID])) ∧
      (selectConceptsIDs (mb.Posterior h.classifier text) ≠ [] →
        net.NewRequest "GET" ("http://test.api.ft.com/internalconcordances?"
          ++ String.intercalate "&"
            ((selectConceptsIDs (mb.Posterior h.classifier text)).map
              (fun id => "ids=" ++ id))) = none →
        (ServeHTTP mb net h contentUUID).2
          = [Call.DetectText s3bucketName contentUUID,
             Call.Do ⟨"GET", "http://test.api.ft.com/internalconcordances?"
               ++ String.intercalate "&"
                 ((selectConceptsIDs (mb.Posterior h.classifier text)).map
                   (fun id => "ids=" ++ id)),
               [("x-api-key", h.apiKey)]⟩])) ∧
    ∀ (C : Type) (mb : Multibayes C) (net : Net) (h : suggestionHandler C)
      (contentUUID : String) (req : Request),
      Call.Do req ∈ (ServeHTTP mb net h contentUUID).2 →
      ∃ text ids, (extractText h.reko contentUUID).1 = .ok text ∧
        ids = selectConceptsIDs (mb.Posterior h.classifier text) ∧ ids ≠ [] ∧
        req = ⟨"GET", requestURL ids, [("x-api-key", h.apiKey)]⟩ := by
  have hgen : ∀ l : List String, l ≠ [] →
      requestURL l
        = "http://test.api.ft.com/internalconcordances?"
          ++ String.intercalate "&" (l.map (fun id => "ids=" ++ id)) ∧
      requestURLLoop l = requestURL l ++ "&" := by
    intro l hl
    cases l with
    | nil => exact absurd rfl hl
    | cons id l =>
      have hu : requestURL (id :: l)
          = "http://test.api.ft.com/internalconcordances?"
            ++ String.intercalate "&" ((id :: l).map (fun id => "ids=" ++ id)) := by
        unfold requestURL
        rw [requestURLLoop_eq, sliceDropLast_append]
      exact ⟨hu, by rw [hu, requestURLLoop_eq]⟩
  have hurl := hgen conceptsIDs hne
  refine ⟨hurl.1, hurl.2, ?_, ?_, ?_⟩
  · intro C net h
    rw [← hurl.1]
    exact ⟨fun err hreq => retrieveConcepts_newRequest_error net h conceptsIDs err hreq,
      fun hreq => retrieveConcepts_log_sent net h conceptsIDs hreq⟩
  · intro C mb net h contentUUID text hx
    refine ⟨fun hsel => ServeHTTP_empty mb net h contentUUID text hx hsel, ?_⟩
    intro hsel hreq
    rw [← (hgen _ hsel).1] at hreq ⊢
    rw [(ServeHTTP_nonempty_status mb net h contentUUID text hx hsel).2,
      retrieveConcepts_log_sent net h _ hreq]
  · intro C mb net h contentUUID req hmem
    rcases hx : (extractText h.reko contentUUID).1 with err | text
    · rw [ServeHTTP_extract_error mb net h contentUUID err hx] at hmem
      simp at hmem
    · by_cases hsel : selectConceptsIDs (mb.Posterior h.classifier text) = []
      · rw [ServeHTTP_empty mb net h contentUUID text hx hsel] at hmem
        simp at hmem
      · rw [(ServeHTTP_nonempty_status mb net h contentUUID text hx hsel).2] at hmem
        refine ⟨text, _, rfl, rfl, hsel, ?_⟩
        rcases retrieveConcepts_log net h (selectConceptsIDs (mb.Posterior h.classifier text))
          with hl | hl
        · rw [hl] at hmem
          simp at hmem
        · rw [hl] at hmem
          simpa using hmem

/-- The list `[a, b]` gives `...internalconcordances?ids=a&ids=b`, and `retrieveConcepts`
sends one GET request to that URL with the API key of the handler. -/
theorem requestURL_ids_witness :
    (["a", "b"] : List String) ≠ [] ∧
    requestURL ["a", "b"] = "http://test.api.ft.com/internalconcordances?ids=a&ids=b" ∧
    requestURLLoop ["a", "b"] = "http://test.api.ft.com/internalconcordances?ids=a&ids=b&" ∧
    (retrieveConcepts exNet exHandler ["a", "b"]).2
      = [Call.Do ⟨"GET", "http://test.api.ft.com/internalconcordances?ids=a&ids=b",
          [("x-api-key", "key")]⟩] := by
  have h := requestURL_ids ["a", "b"] (by decide)
  refine ⟨by decide, ?_, ?_, ?_⟩
  · rw [h.1]; decide
  · rw [h.2.1, h.1]; decide
  · rw [(h.2.2.1 _ exNet exHandler).2 rfl]; decide

/-! ## Startup -/

/-- C9: `app.Action` reaches the serving phase only with a session and either, when
`./classifier.json` does not exist, a classifier obtained from a new one by adding every
item of the training set, whose marshalling and whose write to `./classifier.json` both
succeeded, or, otherwise, the classifier that `LoadClassifierFromFile` returned without
error.  A load failure, a marshalling failure and a write failure each end in a panic
with that error. -/
theorem Action_serving_trusted {C : Type} (sys : Sys) (mb : Multibayes C) (net : Net)
    (awsRegion awsAccessKeyID awsSecretAccessKey apiKey : String) :
    (∀ handler route addr,
      Action sys mb net awsRegion awsAccessKeyID awsSecretAccessKey apiKey
        = .serving handler route addr →
      ∃ reko, sys.NewSession awsRegion awsAccessKeyID awsSecretAccessKey = .ok reko ∧
        handler = ⟨reko, handler.classifier, apiKey⟩ ∧
        ((sys.StatIsNotExist "./classifier.json" = true ∧
            ∃ trainingSet log bytes,
              buildTrainingSet sys reko net apiKey = .ok (trainingSet, log) ∧
              handler.classifier
                = trainingSet.foldl (fun c item => mb.Add c item.text item.concepts)
                    (mb.SetMinClassSize mb.NewClassifier 0) ∧
              mb.Marshal handler.classifier = .ok bytes ∧
              sys.WriteFile "./classifier.json" bytes = .ok ()) ∨
          (sys.StatIsNotExist "./classifier.json" = false ∧
            mb.LoadClassifierFromFile "./classifier.json" = .ok handler.classifier))) ∧
    (∀ reko err,
      sys.NewSession awsRegion awsAccessKeyID awsSecretAccessKey = .ok reko →
      sys.StatIsNotExist "./classifier.json" = false →
      mb.LoadClassifierFromFile "./classifier.json" = .error err →
      Action sys mb net awsRegion awsAccessKeyID awsSecretAccessKey apiKey = .panic err) ∧
    (∀ reko trainingSet log err,
      sys.NewSession awsRegion awsAccessKeyID awsSecretAccessKey = .ok reko →
      sys.StatIsNotExist "./classifier.json" = true →
      buildTrainingSet sys reko net apiKey = .ok (trainingSet, log) →
      mb.Marshal (trainClassifier mb trainingSet) = .error err →
      Action sys mb net awsRegion awsAccessKeyID awsSecretAccessKey apiKey = .panic err) ∧
    (∀ reko trainingSet log bytes err,
      sys.NewSession awsRegion awsAccessKeyID awsSecretAccessKey = .ok reko →
      sys.StatIsNotExist "./classifier.json" = true →
      buildTrainingSet sys reko net apiKey = .ok (trainingSet, log) →
      mb.Marshal (trainClassifier mb trainingSet) = .ok bytes →
      sys.WriteFile "./classifier.json" bytes = .error err →
      Action sys mb net awsRegion awsAccessKeyID awsSecretAccessKey apiKey = .panic err) := by
  refine ⟨?_, ?_, ?_, ?_⟩
  · intro handler route addr hs
    unfold Action at hs
    rcases hn : sys.NewSession awsRegion awsAccessKeyID awsSecretAccessKey with err | reko
    · simp [hn] at hs
    · refine ⟨reko, rfl, ?_⟩
      rw [hn] at hs
      simp only at hs
      by_cases hst : sys.StatIsNotExist "./classifier.json" = true
      · rw [if_pos hst] at hs
        rcases hb : buildTrainingSet sys reko net apiKey with err | ⟨trainingSet, log⟩
        · simp [hb] at hs
        · rw [hb] at hs
          simp only at hs
          rcases hm : mb.Marshal (trainClassifier mb trainingSet) with err | bytes
          · simp [hm] at hs
          · rw [hm] at hs
            simp only at hs
            rcases hw : sys.WriteFile "./classifier.json" bytes with err | u
            · simp [hw] at hs
            · rw [hw] at hs
              simp only [Startup.serving.injEq] at hs
              obtain ⟨hh, -, -⟩ := hs
              subst hh
              exact ⟨rfl, Or.inl ⟨hst, trainingSet, log, bytes, rfl, rfl, hm, hw⟩⟩
      · rw [if_neg hst] at hs
        have hst2 : sys.StatIsNotExist "./classifier.json" = false := by simpa using hst
        rcases hl : mb.LoadClassifierFromFile "./classifier.json" with err | classifier
        · simp [hl] at hs
        · rw [hl] at hs
          simp only [Startup.serving.injEq] at hs
          obtain ⟨hh, -, -⟩ := hs
          subst hh
          exact ⟨rfl, Or.inr ⟨hst2, rfl⟩⟩
  · intro reko err hn hst hl
    simp [Action, hn, hst, hl]
  · intro reko trainingSet log err hn hst hb hm
    simp [Action, hn, hst, hb, hm]
  · intro reko trainingSet log bytes err hn hst hb hm hw
    simp [Action, hn, hst, hb, hm, hw]

/-- Without a classifier file the example system trains on the two surviving items,
saves and serves; with a classifier file that cannot be loaded it panics. -/
theorem Action_serving_trusted_witness :
    Action exSys exMultibayes exNet "eu-west-1" "id" "secret" "key"
      = .serving ⟨exReko, [⟨"cat sat on mat ", ["animal", "pets"]⟩, ⟨"", ["speed"]⟩], "key"⟩
          "/content/:uuid/suggest" ":8080" ∧
    Action exSysPersisted exMultibayes exNet "eu-west-1" "id" "secret" "key"
      = .panic "open ./classifier.json: permission denied" :=
  ⟨rfl,
    (Action_serving_trusted exSysPersisted exMultibayes exNet "eu-west-1" "id" "secret"
      "key").2.1 exReko _ rfl rfl rfl⟩

end GraphicsSuggestion
